import Mathlib

/-!
Verification of the embodied_datakit compilation pipeline.

Shallow embedding of the data model and operations of the
`embodied_datakit` Python package: schema types (Step, Episode,
TaskCatalog, stats accumulator), the RLDS structural validator, the
compiler's per-episode classification loop, the LeRobot-v3 writer, the
offset-consistency finalizer and the run manifest.

Modelling conventions:
* numeric tensors are rank-1 vectors of rationals (`List ℚ`); floating
  point arithmetic is modelled by exact rational arithmetic and
  `np.sqrt` by `Rat.sqrt`;
* Python dicts that are iterated in insertion order are modelled as
  association lists;
* functions that can `raise` return `Option`/`Except`;
* byte strings are modelled as lists of naturals.
-/

namespace EDK

/-- Severity levels of validation findings (validators/base.py). -/
inductive Severity where
  | error
  | warn
  | info
deriving DecidableEq, Repr

/-- One validation finding, with the fields the structural validators
populate at their construction sites (validator name, severity, message,
optional episode locator and step index). -/
structure Finding where
  validator : String
  severity : Severity
  message : String
  episode_id : Option String
  step_index : Option Nat
deriving DecidableEq, Repr

/-- An observation value: a numeric tensor (modelled rank-1), a string,
or a byte string (schema/step.py observation dict values). -/
inductive ObsVal where
  | arr (xs : List ℚ)
  | str (s : String)
  | bytes (bs : List Nat)
deriving DecidableEq, Repr

/-- Canonical step (schema/step.py `Step`).  `step_metadata` is modelled
as a string-to-string association list. -/
structure Step where
  is_first : Bool
  is_last : Bool
  observation : List (String × ObsVal)
  timestamp : ℚ
  is_terminal : Bool
  action : Option (List ℚ)
  reward : Option ℚ
  discount : Option ℚ
  step_metadata : List (String × String)
deriving DecidableEq, Repr

/-- Canonical episode (schema/episode.py `Episode`): the plain record,
before the `__post_init__` invariant check. -/
structure Episode where
  episode_id : String
  dataset_id : String
  steps : List Step
  task_id : Int
  task_text : String
  invalid : Bool
  episode_metadata : List (String × String)
deriving DecidableEq, Repr

/-- Whether the head of the step list carries `is_first` (vacuously true
when empty), as read by `Episode.__post_init__`. -/
def firstFlagOk : List Step → Bool
  | [] => true
  | s :: _ => s.is_first

/-- Whether the last element of the step list carries `is_last`
(vacuously true when empty), as read by `Episode.__post_init__`. -/
def lastFlagOk (steps : List Step) : Bool :=
  match steps.getLast? with
  | none => true
  | some s => s.is_last

/-- Episode construction (schema/episode.py `Episode.__post_init__`):
an empty step list or a set `invalid` flag skips validation; otherwise
the first step must have `is_first` and the last step `is_last`, else a
`ValueError` is raised (modelled as `none`). -/
def mkEpisode (episode_id dataset_id : String) (steps : List Step)
    (task_id : Int) (task_text : String) (invalid : Bool)
    (episode_metadata : List (String × String)) : Option Episode :=
  if steps.isEmpty then
    some ⟨episode_id, dataset_id, steps, task_id, task_text, invalid, episode_metadata⟩
  else if invalid then
    some ⟨episode_id, dataset_id, steps, task_id, task_text, invalid, episode_metadata⟩
  else if !(firstFlagOk steps) then
    none
  else if !(lastFlagOk steps) then
    none
  else
    some ⟨episode_id, dataset_id, steps, task_id, task_text, invalid, episode_metadata⟩

/-- An episode value is admissible when the constructor would not raise
on its fields: empty steps, or the invalid flag set, or correct boundary
flags. -/
def Episode.admissible (e : Episode) : Bool :=
  e.steps.isEmpty || e.invalid || (firstFlagOk e.steps && lastFlagOk e.steps)

/-- Association-list lookup with string keys, modelling Python dict
indexing (first match wins; Python dicts have unique keys). -/
def lookupStr {α : Type} : List (String × α) → String → Option α
  | [], _ => none
  | (k, v) :: rest, key => if k = key then some v else lookupStr rest key

/-- Task catalog (schema/tasks.py `TaskCatalog`): forward map, reverse
map and the next fresh id, with dicts modelled as association lists in
insertion order. -/
structure TaskCatalog where
  _tasks : List (String × Nat)
  _reverse : List (Nat × String)
  _next_id : Nat
deriving DecidableEq, Repr

/-- The empty catalog (the dataclass field defaults). -/
def TaskCatalog.empty : TaskCatalog := ⟨[], [], 0⟩

/-- `TaskCatalog.add` (schema/tasks.py): return the existing id when the
text is present, otherwise assign `_next_id`, append to both maps and
bump `_next_id`. -/
def TaskCatalog.add (c : TaskCatalog) (task : String) : Nat × TaskCatalog :=
  match lookupStr c._tasks task with
  | some tid => (tid, c)
  | none =>
    (c._next_id,
      ⟨c._tasks ++ [(task, c._next_id)],
       c._reverse ++ [(c._next_id, task)],
       c._next_id + 1⟩)

/-- `TaskCatalog.get_or_add` delegates to `add`. -/
def TaskCatalog.get_or_add (c : TaskCatalog) (task : String) : Nat × TaskCatalog :=
  c.add task

/-- Well-formedness of a catalog: ids are assigned consecutively from 0
in first-seen order, task texts are distinct, `_next_id` is the number
of tasks and the reverse map mirrors the forward map.  This holds for
the empty catalog and is preserved by `add`, and it makes the
text-to-id mapping bijective. -/
def TaskCatalog.Wf (c : TaskCatalog) : Prop :=
  c._tasks.map Prod.snd = List.range c._tasks.length ∧
  (c._tasks.map Prod.fst).Nodup ∧
  c._next_id = c._tasks.length ∧
  c._reverse = c._tasks.map (fun p => (p.2, p.1))

instance (c : TaskCatalog) : Decidable c.Wf := by
  unfold TaskCatalog.Wf; infer_instance

/-- Helper for a `Finding` as constructed by the structural validator
call sites (validators/structural.py): severity, message, episode id
and an optional step index. -/
def mkFinding (validator : String) (severity : Severity) (message : String)
    (episode_id : String) (step_index : Option Nat) : Finding :=
  ⟨validator, severity, message, some episode_id, step_index⟩

/-- Findings for the interior steps `episode.steps[1:-1]` of the RLDS
invariant validator, enumerated from index 1: an ERROR for a set
`is_first` and an ERROR for a set `is_last` on each interior step. -/
def rldsMiddleFindings (eid : String) : Nat → List Step → List Finding
  | _, [] => []
  | i, s :: rest =>
    (if s.is_first then
      [mkFinding "rlds_invariants" .error "Only first step should have is_first=True" eid (some i)]
     else []) ++
    (if s.is_last then
      [mkFinding "rlds_invariants" .error "Only last step should have is_last=True" eid (some i)]
     else []) ++
    rldsMiddleFindings eid (i + 1) rest

/-- Terminal-implies-last WARN findings over all steps, enumerated from
index 0 (validators/structural.py). -/
def rldsTerminalFindings (eid : String) : Nat → List Step → List Finding
  | _, [] => []
  | i, s :: rest =>
    (if s.is_terminal && !s.is_last then
      [mkFinding "rlds_invariants" .warn "Terminal step is not marked as last" eid (some i)]
     else []) ++
    rldsTerminalFindings eid (i + 1) rest

/-- The findings of `RLDSInvariantValidator.validate_episode` as a
function of the episode id and step list (validators/structural.py):
empty episodes are an ERROR; the first step must have `is_first` and
the last step `is_last` (ERRORs); a non-null action on the last step is
a WARN; interior steps `steps[1:-1]` (indices 1..n-2) must not carry
`is_first`/`is_last` (ERRORs); a terminal step that is not last is a
WARN.  `rest.getLastD s0` is `steps[-1]`. -/
def rldsFindingsCore (eid : String) : List Step → List Finding
  | [] => [⟨"rlds_invariants", .error, "Episode has no steps", some eid, none⟩]
  | s0 :: rest =>
    let last_step := rest.getLastD s0
    (if !s0.is_first then
      [mkFinding "rlds_invariants" .error "First step must have is_first=True" eid (some 0)]
     else []) ++
    (if !last_step.is_last then
      [mkFinding "rlds_invariants" .error "Last step must have is_last=True" eid (some rest.length)]
     else []) ++
    (if last_step.action.isSome then
      [mkFinding "rlds_invariants" .warn "Last step should have action=None (RLDS convention)" eid (some rest.length)]
     else []) ++
    rldsMiddleFindings eid 1 rest.dropLast ++
    rldsTerminalFindings eid 0 (s0 :: rest)

/-- `RLDSInvariantValidator.validate_episode`; the `spec` argument is
unused by this validator. -/
def rldsValidate (episode : Episode) : List Finding :=
  rldsFindingsCore episode.episode_id episode.steps

/-- Whether a finding list contains an ERROR
(compiler.py `has_error`). -/
def hasErrorFinding (findings : List Finding) : Bool :=
  findings.any (fun f => f.severity == Severity.error)

/-- Whether a finding list contains a WARN (compiler.py `has_warn`). -/
def hasWarnFinding (findings : List Finding) : Bool :=
  findings.any (fun f => f.severity == Severity.warn)

/-- Merged findings of all validators on one episode
(compiler.py `Compiler._validate_episode`). -/
def episodeFindings (validators : List (Episode → List Finding)) (episode : Episode) :
    List Finding :=
  (validators.map (fun v => v episode)).flatten

/-- Compiler loop state, generic in the writer state `W`
(compiler.py `Compiler.compile` local variables; the writer's received
episodes live in `writer`). -/
structure CompileState (W : Type) where
  writer : W
  episodes_written : Nat
  episodes_rejected : Nat
  episodes_invalid : Nat

/-- One iteration of the compile loop (compiler.py, loop body of
`Compiler.compile`): transform the episode, merge validator findings,
then classify.  Any ERROR rejects the episode (and stops the stream
when `fail_fast`); otherwise a WARN marks the episode invalid and
counts it, and the episode is passed to the writer and counted written.
The returned Bool is whether the loop continues. -/
def compileStep {W : Type} (write : W → Episode → W)
    (validators : List (Episode → List Finding))
    (transform : Episode → Episode) (failFast : Bool)
    (st : CompileState W) (ep : Episode) : CompileState W × Bool :=
  let episode := transform ep
  let findings := episodeFindings validators episode
  let has_error := hasErrorFinding findings
  let has_warn := hasWarnFinding findings
  if has_error then
    ({ st with episodes_rejected := st.episodes_rejected + 1 }, !failFast)
  else
    let episode := if has_warn then { episode with invalid := true } else episode
    let st :=
      if has_warn then { st with episodes_invalid := st.episodes_invalid + 1 } else st
    ({ st with
        writer := write st.writer episode,
        episodes_written := st.episodes_written + 1 }, true)

/-- The compile loop over the episode stream (compiler.py
`Compiler.compile`): fold `compileStep`, stopping early when it signals
a fail-fast abort. -/
def compileRun {W : Type} (write : W → Episode → W)
    (validators : List (Episode → List Finding))
    (transform : Episode → Episode) (failFast : Bool) :
    CompileState W → List Episode → CompileState W
  | st, [] => st
  | st, ep :: rest =>
    let r := compileStep write validators transform failFast st ep
    if r.2 then compileRun write validators transform failFast r.1 rest else r.1

/-- Per-key accumulator entry (schema/stats.py `StatsAccumulator`
internal dicts): sample count, running sum, running sum of squares,
elementwise min and max. -/
structure StatEntry where
  count : Nat
  sum : List ℚ
  sum_sq : List ℚ
  min : List ℚ
  max : List ℚ
deriving DecidableEq, Repr

/-- Accumulator state: one entry per feature key, in insertion order. -/
abbrev StatsAcc : Type := List (String × StatEntry)

/-- Updating an existing entry with one flattened value
(schema/stats.py `StatsAccumulator.add`, the post-init updates). -/
def StatEntry.update (e : StatEntry) (flat : List ℚ) : StatEntry :=
  ⟨e.count + 1,
   List.zipWith (· + ·) e.sum flat,
   List.zipWith (fun a x => a + x * x) e.sum_sq flat,
   List.zipWith Min.min e.min flat,
   List.zipWith Max.max e.max flat⟩

/-- `StatsAccumulator.add`: a fresh key is initialised (count 0, zero
sums, ±inf min/max) and immediately updated, which collapses to count 1
with the value itself as sum/min/max; a present key is updated in
place. -/
def statsAdd (acc : StatsAcc) (key : String) (flat : List ℚ) : StatsAcc :=
  match lookupStr acc key with
  | none =>
    acc ++ [(key, ⟨1, flat, flat.map (fun x => x * x), flat, flat⟩)]
  | some _ =>
    acc.map (fun p => if p.1 = key then (p.1, p.2.update flat) else p)

/-- Per-feature statistics as derived by `compute()`
(schema/stats.py `FeatureStats`). -/
structure FeatureStats where
  mean : List ℚ
  std : List ℚ
  min : List ℚ
  max : List ℚ
  count : Nat
deriving DecidableEq, Repr

/-- `StatsAccumulator.compute`: for every key with nonzero count,
mean = sum/count, variance = sumSq/count − mean², and
std = sqrt(max(variance, 0)) elementwise (`np.sqrt` modelled by
`Rat.sqrt`). -/
def statsCompute (acc : StatsAcc) : List (String × FeatureStats) :=
  acc.filterMap (fun p =>
    let e := p.2
    if e.count = 0 then none
    else
      let n : ℚ := e.count
      let mean := e.sum.map (fun x => x / n)
      let variance := List.zipWith (fun s m => s / n - m * m) e.sum_sq mean
      let std := variance.map (fun v => Rat.sqrt (max v 0))
      some (p.1, ⟨mean, std, e.min, e.max, e.count⟩))

/-- Run manifest (manifest.py `RunManifest`); the free-form `config`
dict is modelled as a string association list. -/
structure RunManifest where
  build_id : String
  timestamp : String
  edk_version : String
  git_commit : String
  git_dirty : Bool
  config_hash : String
  config : List (String × String)
  source_uri : String
  output_dir : String
  artifacts : List String
  episode_count : Nat
  duration_secs : ℚ
  status : String
  error : String
deriving DecidableEq, Repr

/-- `RunManifest.add_artifact`: append the path, unconditionally. -/
def RunManifest.add_artifact (m : RunManifest) (path : String) : RunManifest :=
  { m with artifacts := m.artifacts ++ [path] }

/-- `RunManifest.complete`: set the counters and status "completed",
unconditionally. -/
def RunManifest.complete (m : RunManifest) (episode_count : Nat)
    (duration_secs : ℚ) : RunManifest :=
  { m with
      episode_count := episode_count,
      duration_secs := duration_secs,
      status := "completed" }

/-- `RunManifest.fail`: set status "failed" and the error message,
unconditionally. -/
def RunManifest.fail (m : RunManifest) (error : String) : RunManifest :=
  { m with status := "failed", error := error }

/-- One row of the episodes index as read by the offset verifier
(writers/finalize.py reads only the table length and the
`parquet_row_start`/`parquet_row_end` columns). -/
structure IndexRow where
  parquet_row_start : Int
  parquet_row_end : Int
deriving DecidableEq, Repr

/-- Lexicographic order on row ranges, as used by Python's tuple sort in
`verify_offsets`. -/
def rangeLe (a b : Int × Int) : Bool :=
  a.1 < b.1 || (a.1 == b.1 && a.2 ≤ b.2)

/-- Insertion into a sorted list of ranges (stable, like list.sort). -/
def insertRange (a : Int × Int) : List (Int × Int) → List (Int × Int)
  | [] => [a]
  | b :: rest => if rangeLe a b then a :: b :: rest else b :: insertRange a rest

/-- Sorting the row ranges (`ranges.sort()` in `verify_offsets`). -/
def sortRanges : List (Int × Int) → List (Int × Int)
  | [] => []
  | a :: rest => insertRange a (sortRanges rest)

/-- The adjacent-overlap scan of `verify_offsets`, enumerating from
index `i = 1`: an error message whenever a range starts before the
previous one ends. -/
def overlapErrors (i : Nat) : List (Int × Int) → List String
  | a :: b :: rest =>
    (if b.1 < a.2 then ["Overlapping parquet ranges at index " ++ toString i] else []) ++
    overlapErrors (i + 1) (b :: rest)
  | _ => []

/-- `DatasetFinalizer.verify_offsets` (writers/finalize.py): a missing
index file is an error; otherwise the number of index rows must equal
`episodes_count`, and the sorted row ranges must not overlap.  The
`expected_steps` argument is accepted but never used by the code. -/
def verifyOffsets (table : Option (List IndexRow)) (episodes_count : Nat)
    (expected_steps : Nat) : List String :=
  match table with
  | none => ["Missing episodes index"]
  | some rows =>
    (if rows.length ≠ episodes_count then
      ["Episode count mismatch: " ++ toString rows.length ++ " != " ++ toString episodes_count]
     else []) ++
    overlapErrors 1 (sortRanges (rows.map (fun r => (r.parquet_row_start, r.parquet_row_end))))

/-- Adjacent overlap in a list of ranges (the property the scan
detects): some range starts before its predecessor ends. -/
def adjacentOverlap : List (Int × Int) → Bool
  | a :: b :: rest => (b.1 < a.2) || adjacentOverlap (b :: rest)
  | _ => false

/-- `DatasetFinalizer.finalize` (writers/finalize.py): verify offsets;
on any violation, mark the manifest failed with the joined violation
list and raise (modelled as `Except.error`); otherwise write checksums,
add the produced artifacts to the manifest, and seal it completed
(`seal_manifest` + `manifest.complete`).  The artifact paths discovered
by the directory globs are passed in as `artifacts`. -/
def finalizeRun (m : RunManifest) (table : Option (List IndexRow))
    (episode_count : Nat) (expected_steps : Nat) (duration_secs : ℚ)
    (artifacts : List String) : RunManifest × Except String Unit :=
  let errors := verifyOffsets table episode_count expected_steps
  if errors ≠ [] then
    (m.fail (String.intercalate "; " errors),
     Except.error ("Finalization failed: " ++ String.intercalate "; " errors))
  else
    let m := artifacts.foldl (fun mm p => mm.add_artifact p) m
    (m.complete episode_count duration_secs, Except.ok ())

/-- A serialized observation value as it appears in the dict produced
by `Step.to_dict`: numpy arrays become Python lists (`tolist`), strings
and byte strings pass through. -/
inductive ObsDictVal where
  | jlist (xs : List ℚ)
  | jstr (s : String)
  | jbytes (bs : List Nat)
deriving DecidableEq, Repr

/-- Serialization of one observation value (schema/step.py
`Step.to_dict` loop over `self.observation.items()`). -/
def obsValToDict : ObsVal → ObsDictVal
  | .arr xs => .jlist xs
  | .str s => .jstr s
  | .bytes bs => .jbytes bs

/-- Deserialization of one observation value (schema/step.py
`Step.from_dict`): lists become arrays, anything else is kept. -/
def obsValFromDict : ObsDictVal → ObsVal
  | .jlist xs => .arr xs
  | .jstr s => .str s
  | .jbytes bs => .bytes bs

/-- The dict produced by `Step.to_dict`, with one field per key the
code writes. -/
structure StepDict where
  is_first : Bool
  is_last : Bool
  is_terminal : Bool
  timestamp : ℚ
  observation : List (String × ObsDictVal)
  step_metadata : List (String × String)
  action : Option (List ℚ)
  reward : Option ℚ
  discount : Option ℚ
deriving DecidableEq, Repr

/-- `Step.to_dict` (schema/step.py): flags, timestamp, serialized
observation dict, a copy of the metadata, `tolist`-ed action (or None),
reward and discount. -/
def Step.to_dict (s : Step) : StepDict :=
  ⟨s.is_first, s.is_last, s.is_terminal, s.timestamp,
   s.observation.map (fun p => (p.1, obsValToDict p.2)),
   s.step_metadata,
   s.action,
   s.reward, s.discount⟩

/-- `Step.from_dict` (schema/step.py): rebuild arrays from lists and
the optional action, take the remaining fields with their defaults. -/
def Step.from_dict (d : StepDict) : Step :=
  ⟨d.is_first, d.is_last,
   d.observation.map (fun p => (p.1, obsValFromDict p.2)),
   d.timestamp, d.is_terminal,
   d.action,
   d.reward, d.discount, d.step_metadata⟩

/-- `Episode.duration` (schema/episode.py): last timestamp minus first
timestamp, 0 for an empty episode. -/
def Episode.duration (e : Episode) : ℚ :=
  match e.steps, e.steps.getLast? with
  | s0 :: _, some sl => sl.timestamp - s0.timestamp
  | _, _ => 0

/-- The dict produced by `Episode.to_dict`, including the derived
`num_steps` and `duration` entries the code writes (and `from_dict`
ignores). -/
structure EpisodeDict where
  episode_id : String
  dataset_id : String
  task_id : Int
  task_text : String
  invalid : Bool
  num_steps : Nat
  duration : ℚ
  episode_metadata : List (String × String)
  steps : List StepDict
deriving DecidableEq, Repr

/-- `Episode.to_dict` (schema/episode.py). -/
def Episode.to_dict (e : Episode) : EpisodeDict :=
  ⟨e.episode_id, e.dataset_id, e.task_id, e.task_text, e.invalid,
   e.steps.length, e.duration, e.episode_metadata,
   e.steps.map Step.to_dict⟩

/-- `Episode.from_dict` (schema/episode.py): deserialize the steps and
run the constructor, whose `__post_init__` may raise (modelled by
`mkEpisode` returning `none`). -/
def Episode.from_dict (d : EpisodeDict) : Option Episode :=
  mkEpisode d.episode_id d.dataset_id (d.steps.map Step.from_dict)
    d.task_id d.task_text d.invalid d.episode_metadata

/-- Feature description (schema/spec.py `FeatureSpec`). -/
structure FeatureSpecM where
  dtype : String
  shape : List Nat
  description : String
  is_video : Bool
deriving DecidableEq, Repr

/-- Dataset specification (schema/spec.py `DatasetSpec`), with the
fields the modelled components read. -/
structure DatasetSpec where
  dataset_id : String
  dataset_name : String
  observation_schema : List (String × FeatureSpecM)
  action_schema : Option FeatureSpecM
  control_rate_hz : ℚ
  camera_names : List String
  canonical_camera : Option String
  task_catalog : TaskCatalog
  source_uri : String
  transform_pipeline : List String
deriving Repr

/-- The trailing dot-component of a key
(`key.split(".")[-1]` in transforms/camera.py and episode.py). -/
def lastDotComponent (k : String) : String :=
  (k.splitOn ".").getLastD k

/-- Whether `needle` starts `hay` (character-level). -/
def startsChars : List Char → List Char → Bool
  | [], _ => true
  | _ :: _, [] => false
  | a :: as, b :: bs => a == b && startsChars as bs

/-- Whether `needle` occurs as a substring of `hay` (character-level),
modelling Python's `in` on strings. -/
def subChars (needle : List Char) : List Char → Bool
  | [] => needle.isEmpty
  | b :: bs => startsChars needle (b :: bs) || subChars needle bs

/-- Python's `needle in hay` for strings. -/
def containsSub (hay needle : String) : Bool :=
  subChars needle.toList hay.toList

/-- Association-list update modelling Python dict assignment
`d[key] = v`: replace in place if the key exists, else append. -/
def setKey {α : Type} (l : List (String × α)) (key : String) (v : α) :
    List (String × α) :=
  if (lookupStr l key).isSome then
    l.map (fun p => if p.1 = key then (p.1, v) else p)
  else
    l ++ [(key, v)]

/-- Configuration of `SelectCameraTransform` (transforms/camera.py):
`camera_name = none` models Python `None`; note the code tests the
name's truthiness, so an empty string also falls through. -/
structure CameraCfg where
  camera_name : Option String
  fallback_order : List String
  target_key : String
deriving DecidableEq, Repr

/-- The default fallback priority list of `SelectCameraTransform`. -/
def defaultFallbackOrder : List String :=
  ["front", "cam_high", "image", "rgb", "agentview_rgb", "image_0",
   "exterior_image_1_left"]

/-- The default `SelectCameraTransform()` configuration. -/
def defaultCameraCfg : CameraCfg :=
  ⟨none, defaultFallbackOrder, "observation.images.canonical"⟩

/-- The minimum of a list of strings, modelling `sorted(available)[0]`
over the set of available camera names. -/
def minString : List String → Option String
  | [] => none
  | s :: rest =>
    match minString rest with
    | none => some s
    | some m => some (if s ≤ m then s else m)

/-- Camera names inferred from the first step's observation keys
(`observation.images.*` prefixes, transforms/camera.py
`_find_camera`). -/
def inferredCameras (ep : Episode) : List String :=
  match ep.steps with
  | [] => []
  | s0 :: _ =>
    (s0.observation.map Prod.fst).filterMap (fun k =>
      if k.startsWith "observation.images." then some (lastDotComponent k) else none)

/-- `SelectCameraTransform._find_camera`: an explicitly configured
(truthy) camera name wins; otherwise the available set comes from
`spec.camera_names`, or failing that from the first step's keys; the
first fallback-order hit is used, else the alphabetically first
available camera, else none. -/
def findCamera (cfg : CameraCfg) (ep : Episode) (spec : DatasetSpec) :
    Option String :=
  if (cfg.camera_name.getD "") ≠ "" then cfg.camera_name
  else
    let available :=
      if spec.camera_names ≠ [] then spec.camera_names else inferredCameras ep
    match cfg.fallback_order.find? (fun cam => available.contains cam) with
    | some cam => some cam
    | none => minString available.dedup

/-- `SelectCameraTransform._transform_step`: copy the observation dict
and, when the source camera key is present, store its value under the
target key; all other step fields are carried over. -/
def selectCameraStep (cfg : CameraCfg) (camera : String) (s : Step) : Step :=
  let source_key := "observation.images." ++ camera
  let new_obs :=
    match lookupStr s.observation source_key with
    | some v => setKey s.observation cfg.target_key v
    | none => s.observation
  { s with observation := new_obs }

/-- `SelectCameraTransform.transform_episode`: when no camera can be
found the episode is returned unchanged (logged, not fatal); otherwise
every step is rebuilt with the canonical camera key added. -/
def selectCameraTransform (cfg : CameraCfg) (spec : DatasetSpec)
    (ep : Episode) : Episode :=
  match findCamera cfg ep spec with
  | none => ep
  | some camera => { ep with steps := ep.steps.map (selectCameraStep cfg camera) }

/-- Configuration of `TaskTextTransform` (transforms/task.py). -/
structure TaskCfg where
  default_text : String
  allow_empty : Bool
  language_key : String
deriving DecidableEq, Repr

/-- The default `TaskTextTransform()` configuration: empty default
text, `allow_empty=False`. -/
def defaultTaskCfg : TaskCfg := ⟨"", false, "observation.language"⟩

/-- Decoding a byte string to text, modelling
`bytes.decode("utf-8", errors="replace")` on the code-point fragment. -/
def decodeBytes (bs : List Nat) : String :=
  String.mk (bs.map Char.ofNat)

/-- Truthiness and text of a language observation value
(`if lang:` in `_extract_task_text`); array-valued language
observations are outside the modelled fragment. -/
def obsValText : ObsVal → Option String
  | .str s => if s ≠ "" then some s else none
  | .bytes bs => if bs ≠ [] then some (decodeBytes bs) else none
  | .arr _ => none

/-- `TaskTextTransform._extract_task_text`: episode `task_text` if
truthy, else the first step's language observation if truthy, else the
first present metadata key among task/instruction/task_text/
language_instruction, else nothing. -/
def extractTaskText (cfg : TaskCfg) (ep : Episode) : Option String :=
  if ep.task_text ≠ "" then some ep.task_text
  else
    let metaFallback :=
      (["task", "instruction", "task_text", "language_instruction"].find?
        (fun k => (lookupStr ep.episode_metadata k).isSome)).bind
        (fun k => lookupStr ep.episode_metadata k)
    match ep.steps with
    | [] => metaFallback
    | s0 :: _ =>
      match (lookupStr s0.observation cfg.language_key).bind obsValText with
      | some t => some t
      | none => metaFallback

/-- `normalize_task_text` (transforms/task.py): None becomes the empty
string; whitespace runs collapse to single spaces and the ends are
stripped (unicode NFKC normalization is outside the modelled
fragment; bytes input is decoded during extraction). -/
def normalizeTaskText : Option String → String
  | none => ""
  | some t =>
    String.intercalate " " ((t.split Char.isWhitespace).filter (fun w => w ≠ ""))

/-- `TaskTextTransform.transform_episode`: extract and normalize the
task text, substitute the configured default when empty, raise
`ValueError` (modelled as `Except.error`) when the result is still
empty and `allow_empty` is false, register the text in the spec's task
catalog, and rebuild the episode with the resulting id and text.  The
updated catalog is returned alongside the episode. -/
def taskTextTransform (cfg : TaskCfg) (spec : DatasetSpec) (ep : Episode) :
    Except String (Episode × TaskCatalog) :=
  let t0 := normalizeTaskText (extractTaskText cfg ep)
  let task_text := if t0 = "" then cfg.default_text else t0
  if task_text = "" && !cfg.allow_empty then
    Except.error ("Empty task_text for episode " ++ ep.episode_id)
  else
    let r :=
      if task_text ≠ "" then spec.task_catalog.get_or_add task_text
      else (0, spec.task_catalog)
    Except.ok ({ ep with task_id := (r.1 : Int), task_text := task_text }, r.2)

/-- One row of `meta/episodes/episodes.parquet` as built by
`LeRobotV3Writer.write_episode` (writers/lerobot_v3/writer.py): the
dict literal has exactly the keys `episode_index`, `tasks` and
`length`. -/
structure EpRecord where
  episode_index : Nat
  tasks : List Nat
  length : Nat
deriving DecidableEq, Repr

/-- The column names of the episodes table the LeRobot v3 writer
produces: the keys of the `episode_record` dict literal in
`write_episode`, in order. -/
def lerobotEpisodesTableColumns : List String :=
  ["episode_index", "tasks", "length"]

/-- A flattened step-record column value (writers/lerobot_v3/writer.py
`_step_to_record`): a numeric list, a string, or a null placeholder. -/
inductive StepColVal where
  | lst (xs : List ℚ)
  | strv (s : String)
  | nullv
deriving DecidableEq, Repr

/-- One flattened per-step row of the data parquet shards
(`_step_to_record`).  The `step_index` argument of the code is accepted
but not stored. -/
structure StepRecord where
  episode_index : Nat
  frame_index : Nat
  timestamp : ℚ
  is_first : Bool
  is_last : Bool
  is_terminal : Bool
  action : Option (List ℚ)
  obs_cols : List (String × StepColVal)
deriving DecidableEq, Repr

/-- Serialization of one observation value into a step-record column
(`_step_to_record`): arrays are stored via `tolist` (the image
placeholder branch requires a rank-3 array, outside the rank-1 tensor
model), strings pass through, bytes are decoded. -/
def obsToStepCol (key : String) (v : ObsVal) : StepColVal :=
  match v with
  | .arr xs => .lst xs
  | .str s => .strv s
  | .bytes bs => .strv (decodeBytes bs)

/-- `_step_to_record`: fixed bookkeeping columns, the `tolist`-ed
action when present, then one column per observation key with dots
replaced by underscores. -/
def stepToRecord (step : Step) (episode_index frame_index step_index : Nat) :
    StepRecord :=
  ⟨episode_index, frame_index, step.timestamp,
   step.is_first, step.is_last, step.is_terminal,
   step.action,
   step.observation.map (fun p => (p.1.replace "." "_", obsToStepCol p.1 p.2))⟩

/-- `_update_stats`: add the action vector under key "action" when
present, then every numeric non-image observation array under its own
key. -/
def updateStats (acc : StatsAcc) (step : Step) : StatsAcc :=
  let acc :=
    match step.action with
    | some a => statsAdd acc "action" a
    | none => acc
  step.observation.foldl (fun ac p =>
    match p.2 with
    | .arr xs => if !(containsSub p.1.toLower "image") then statsAdd ac p.1 xs else ac
    | _ => ac) acc

/-- `_get_or_create_task`: the writer's private task dict assigns
`len(self._tasks)` as a fresh id. -/
def getOrCreateTask (tasks : List (String × Nat)) (task_text : String) :
    Nat × List (String × Nat) :=
  match lookupStr tasks task_text with
  | some tid => (tid, tasks)
  | none => (tasks.length, tasks ++ [(task_text, tasks.length)])

/-- Writer configuration (constructor arguments, defaults 1000
episodes per chunk and 10000 rows per parquet shard). -/
structure LRCfg where
  episodes_per_chunk : Nat
  rows_per_parquet : Nat
deriving DecidableEq, Repr

/-- The default `LeRobotV3Writer()` configuration. -/
def defaultLRCfg : LRCfg := ⟨1000, 10000⟩

/-- LeRobot v3 writer state (writers/lerobot_v3/writer.py and the
`_episode_count`/`_artifacts` of writers/base.py `BaseWriter`);
`flushed` holds the contents of the parquet shards written so far, in
order. -/
structure LRState where
  episode_count : Nat
  total_steps : Nat
  tasks : List (String × Nat)
  episode_records : List EpRecord
  step_buffer : List StepRecord
  flushed : List (List StepRecord)
  chunk_idx : Nat
  parquet_idx : Nat
  stats : StatsAcc
  artifacts : List String
deriving DecidableEq, Repr

/-- The state `begin` resets to. -/
def lrInit : LRState := ⟨0, 0, [], [], [], [], 0, 0, [], []⟩

/-- Left-pad a number with zeros to a fixed width (Python `{n:03d}` /
`{n:05d}` format specifiers). -/
def zeroPad (width : Nat) (n : Nat) : String :=
  let s := toString n
  String.mk (List.replicate (width - s.length) '0') ++ s

/-- The shard path `data/chunk-CCC/steps_PPPPP.parquet`
(`_flush_step_buffer`). -/
def parquetShardPath (chunk_idx parquet_idx : Nat) : String :=
  "data/chunk-" ++ zeroPad 3 chunk_idx ++ "/steps_" ++ zeroPad 5 parquet_idx ++ ".parquet"

/-- `_flush_step_buffer`: no-op on an empty buffer; otherwise write the
buffered rows as one parquet shard, record the artifact, clear the
buffer and bump the shard index. -/
def lrFlush (st : LRState) : LRState :=
  if st.step_buffer = [] then st
  else
    { st with
        flushed := st.flushed ++ [st.step_buffer],
        artifacts := st.artifacts ++ [parquetShardPath st.chunk_idx st.parquet_idx],
        step_buffer := [],
        parquet_idx := st.parquet_idx + 1 }

/-- The per-step loop of `write_episode`: convert each step to a
record at the running frame index, append it to the buffer, count it
and update the statistics. -/
def lrProcessSteps (episode_index : Nat) :
    LRState → Nat → List Step → LRState
  | st, _, [] => st
  | st, step_idx, step :: rest =>
    let record := stepToRecord step episode_index st.total_steps step_idx
    let st :=
      { st with
          step_buffer := st.step_buffer ++ [record],
          total_steps := st.total_steps + 1,
          stats := updateStats st.stats step }
    lrProcessSteps episode_index st (step_idx + 1) rest

/-- `LeRobotV3Writer.write_episode`: count the episode (base class),
register its task text, append its episode record, process its steps,
flush when the buffer reaches the configured shard capacity, and
rotate the chunk every `episodes_per_chunk` episodes. -/
def lrWriteEpisode (cfg : LRCfg) (st : LRState) (ep : Episode) : LRState :=
  let st := { st with episode_count := st.episode_count + 1 }
  let tr := getOrCreateTask st.tasks ep.task_text
  let st := { st with tasks := tr.2 }
  let record : EpRecord := ⟨st.episode_count - 1, [tr.1], ep.steps.length⟩
  let st := { st with episode_records := st.episode_records ++ [record] }
  let st := lrProcessSteps (st.episode_count - 1) st 0 ep.steps
  let st := if cfg.rows_per_parquet ≤ st.step_buffer.length then lrFlush st else st
  if st.episode_count % cfg.episodes_per_chunk = 0 then
    { st with chunk_idx := st.chunk_idx + 1 }
  else st

/-- Feature entry of `meta/info.json` (`_get_feature_info`); the
action entry carries no `is_video` key, modelled as `none`. -/
structure FeatInfo where
  dtype : String
  shape : List Nat
  is_video : Option Bool
deriving DecidableEq, Repr

/-- `_get_feature_info`: the action schema (when present) under key
"action", then one entry per observation feature with dots replaced by
underscores. -/
def lrFeatureInfo (spec : DatasetSpec) : List (String × FeatInfo) :=
  (match spec.action_schema with
   | some a => [("action", ⟨a.dtype, a.shape, none⟩)]
   | none => []) ++
  spec.observation_schema.map (fun p =>
    (p.1.replace "." "_", ⟨p.2.dtype, p.2.shape, some p.2.is_video⟩))

/-- The content of `meta/info.json` (`_write_info_json`). -/
structure InfoJson where
  codebase_version : String
  robot_type : String
  fps : ℚ
  total_episodes : Nat
  total_frames : Nat
  total_tasks : Nat
  splits_train : List Nat
  data_path : String
  features : List (String × FeatInfo)
deriving DecidableEq, Repr

/-- `_write_info_json` from the final writer state and spec. -/
def lrInfoJson (spec : DatasetSpec) (st : LRState) : InfoJson :=
  ⟨"v3.0", spec.dataset_name, spec.control_rate_hz,
   st.episode_count, st.total_steps, st.tasks.length,
   List.range st.episode_count,
   "data/chunk-{chunk:03d}/steps_{file:05d}.parquet",
   lrFeatureInfo spec⟩

/-- `LeRobotV3Writer.finalize`: flush the remaining buffered rows,
then write the metadata files.  The model returns the final state
together with the `meta/info.json` content, the `meta/tasks.jsonl`
rows (insertion order equals id order), the computed statistics, and
the episodes table rows. -/
def lrFinalize (spec : DatasetSpec) (st : LRState) :
    LRState × InfoJson × List (Nat × String) × List (String × FeatureStats) × List EpRecord :=
  let st := if st.step_buffer ≠ [] then lrFlush st else st
  (st, lrInfoJson spec st,
   st.tasks.map (fun p => (p.2, p.1)),
   statsCompute st.stats,
   st.episode_records)

/-- Modelled from the spec: the sum of per-shard row counts recorded in
the episodes index, the quantity §4.7 says `verify offset consistency`
compares against counted totals.  `DatasetFinalizer.verify_offsets`
itself computes no such sum (its `expected_steps` argument is unused),
so this definition follows the spec's words for comparison. -/
def specRowCountSum (rows : List IndexRow) : Int :=
  (rows.map (fun r => r.parquet_row_end - r.parquet_row_start)).sum

/-- A one-row index table whose recorded row count (3) differs from the
counted totals (5 steps). -/
def c3Table : List IndexRow := [⟨0, 3⟩]

/-- A step with both boundary flags set and a non-null action. -/
def c2Step0 : Step := ⟨true, true, [], 0, false, some [1], none, none, []⟩

/-- A final step with both boundary flags set and no action. -/
def c2Step1 : Step := ⟨true, true, [], 1, false, none, none, none, []⟩

/-- A two-step episode whose first step also carries `is_last` (and an
action) and whose last step also carries `is_first`: the RLDS invariant
validator only inspects `steps[1:-1]` for flag duplication, so this
episode produces no findings at all. -/
def c2Episode : Episode := ⟨"ce2", "ds", [c2Step0, c2Step1], 0, "", false, []⟩

/-- A well-formed single-step episode used to instantiate universally
quantified theorems. -/
def demoStep : Step :=
  ⟨true, true, [("observation.state", .arr [1, 2])], 0, false, none, some 1, none, []⟩

/-- A well-formed demo episode (admissible for the constructor). -/
def demoEpisode : Episode := ⟨"demo", "ds", [demoStep], 0, "press", false, []⟩

/-- An episode with no steps, empty task text and empty metadata: no
task text source exists, so the default `TaskTextTransform` raises. -/
def c8Episode : Episode := ⟨"e-no-task", "ds", [], 0, "", false, []⟩

/-- A demo dataset spec with no cameras and an empty task catalog. -/
def demoSpec : DatasetSpec :=
  ⟨"ds", "demo", [], none, 10, [], none, TaskCatalog.empty, "", []⟩

/-- A freshly created manifest (status "running"). -/
def demoManifest : RunManifest :=
  ⟨"b1", "2024-01-01T00:00:00", "0.1.0", "", false, "h", [], "src", "out",
   [], 0, 0, "running", ""⟩

/-- Step `j` of synthetic scenario episode `i` (3 episodes × 5 steps):
correct boundary flags, a one-dimensional state observation, unit
actions on all but the last step. -/
def scenarioStep (i j : Nat) : Step :=
  ⟨j == 0, j == 4, [("observation.state", .arr [(i : ℚ) + (j : ℚ)])], (j : ℚ),
   false, if j == 4 then none else some [1], none, none, []⟩

/-- Scenario episode `i` with 5 steps. -/
def scenarioEpisode (i : Nat) : Episode :=
  ⟨"ep-" ++ toString i, "synthetic", (List.range 5).map (scenarioStep i), 0,
   "pick the block", false, []⟩

/-- The three scenario episodes of §8's concrete scenario. -/
def scenarioEpisodes : List Episode :=
  [scenarioEpisode 0, scenarioEpisode 1, scenarioEpisode 2]

/-- The scenario dataset spec (state observation and action schema). -/
def scenarioSpec : DatasetSpec :=
  ⟨"synthetic", "synthetic",
   [("observation.state", ⟨"float32", [1], "", false⟩)],
   some ⟨"float32", [7], "", false⟩, 10, [], none, TaskCatalog.empty, "", []⟩

/-- Compiling the three scenario episodes through the LeRobot v3 writer
with only RLDS-invariant validation (compiler loop with the writer's
`write_episode` as the write action). -/
def scenarioState : CompileState LRState :=
  compileRun (lrWriteEpisode defaultLRCfg) [rldsValidate] id false
    ⟨lrInit, 0, 0, 0⟩ scenarioEpisodes

/-- The writer's `finalize` output for the scenario. -/
def scenarioOutput :
    LRState × InfoJson × List (Nat × String) × List (String × FeatureStats) × List EpRecord :=
  lrFinalize scenarioSpec scenarioState.writer

/-- The final writer state of the scenario. -/
def scenarioFinalState : LRState := scenarioOutput.1

/-- The scenario's `meta/info.json` content. -/
def scenarioInfo : InfoJson := scenarioOutput.2.1

/-- The scenario's episodes index table rows. -/
def scenarioTable : List EpRecord := scenarioOutput.2.2.2.2

/-! Helper lemmas. -/

theorem lastFlagOk_cons (s0 : Step) (rest : List Step) :
    lastFlagOk (s0 :: rest) = (rest.getLastD s0).is_last := by
  simp [lastFlagOk, List.getLast?_cons]

theorem hasErrorFinding_append (a b : List Finding) :
    hasErrorFinding (a ++ b) = (hasErrorFinding a || hasErrorFinding b) := by
  simp [hasErrorFinding, List.any_append]

theorem hasErrorFinding_nil : hasErrorFinding [] = false := rfl

/-! C10: the Episode constructor guard. -/

/-- C10: constructing an Episode raises `ValueError` if and only if the
step list is non-empty, the invalid flag is false, and either the first
step lacks `is_first` or the last step lacks `is_last`; an empty step
list or a set invalid flag never raises. -/
theorem c10_episode_constructor_guard (eid did : String) (steps : List Step)
    (tid : Int) (tt : String) (inv : Bool) (md : List (String × String)) :
    mkEpisode eid did steps tid tt inv md = none ↔
      steps ≠ [] ∧ inv = false ∧
        ((∃ s0 rest, steps = s0 :: rest ∧ s0.is_first = false) ∨
         (∃ sl, steps.getLast? = some sl ∧ sl.is_last = false)) := by
  cases steps with
  | nil => simp [mkEpisode]
  | cons s0 rest =>
    cases hinv : inv with
    | true => simp [mkEpisode]
    | false =>
      by_cases hf : s0.is_first <;>
        by_cases hl : (rest.getLastD s0).is_last <;>
          simp [mkEpisode, firstFlagOk, lastFlagOk_cons, hf, hl,
            List.getLast?_cons]

/-! C9: manifest sealing. -/

/-- C9 counterexample: sealing is not a terminal transition on
`RunManifest`.  A manifest sealed as completed is still mutated by
subsequent operations: `fail` flips its status to "failed" and
`add_artifact` extends its artifact list. -/
theorem c9_counterexample :
    (demoManifest.complete 1 2).status = "completed" ∧
    ((demoManifest.complete 1 2).fail "io error").status = "failed" ∧
    ((demoManifest.complete 1 2).fail "io error").status ≠ "completed" ∧
    ((demoManifest.complete 1 2).add_artifact "x").artifacts ≠
      (demoManifest.complete 1 2).artifacts := by
  refine ⟨rfl, rfl, by decide, by decide⟩

/-- C9 (amended): `complete`, `fail` and `add_artifact` mutate the
manifest unconditionally — `complete` sets the counters and status
"completed", `fail` sets status "failed" and the error, `add_artifact`
appends — with no guard on an already sealed manifest, so in
particular `fail` after `complete` changes the status to "failed". -/
theorem c9_manifest_ops (m : RunManifest) (c : Nat) (d : ℚ)
    (err path : String) :
    (m.complete c d).status = "completed" ∧
    (m.complete c d).episode_count = c ∧
    (m.complete c d).duration_secs = d ∧
    (m.fail err).status = "failed" ∧
    (m.fail err).error = err ∧
    (m.add_artifact path).artifacts = m.artifacts ++ [path] ∧
    ((m.complete c d).fail err).status = "failed" ∧
    "failed" ≠ "completed" := by
  refine ⟨rfl, rfl, rfl, rfl, rfl, rfl, rfl, by decide⟩

theorem lookupStr_append_right {α : Type} (l : List (String × α)) (x : String)
    (v : α) (h : lookupStr l x = none) : lookupStr (l ++ [(x, v)]) x = some v := by
  induction l with
  | nil => simp [lookupStr]
  | cons p rest ih =>
    by_cases hk : p.1 = x
    · simp [lookupStr, hk] at h
    · simp only [List.cons_append, lookupStr, if_neg hk] at h ⊢
      exact ih h

theorem lookupStr_none_not_key {α : Type} (l : List (String × α)) (x : String)
    (h : lookupStr l x = none) : x ∉ l.map Prod.fst := by
  induction l with
  | nil => simp
  | cons p rest ih =>
    by_cases hk : p.1 = x
    · simp [lookupStr, hk] at h
    · simp only [lookupStr, if_neg hk] at h
      simp only [List.map_cons, List.mem_cons]
      rintro (rfl | hmem)
      · exact hk rfl
      · exact ih h hmem

/-! C5: the task catalog. -/

/-- C5: on a well-formed catalog, `add` is idempotent — a second `add`
of the same text returns the same id and leaves the catalog unchanged —
the returned id is the catalog's id for that text, and the resulting
catalog is again well formed (`TaskCatalog.Wf`: ids consecutive from 0
in first-seen order, distinct texts, mirrored reverse map — hence a
bijective text-to-id mapping); on a fresh catalog the call sequence
add "A", add "B", add "A" returns ids 0, 1, 0. -/
theorem c5_task_catalog_add (c : TaskCatalog) (x : String) (h : c.Wf) :
    ((c.add x).2.add x).1 = (c.add x).1 ∧
    ((c.add x).2.add x).2 = (c.add x).2 ∧
    lookupStr (c.add x).2._tasks x = some (c.add x).1 ∧
    (c.add x).2.Wf ∧
    (TaskCatalog.empty.add "A").1 = 0 ∧
    ((TaskCatalog.empty.add "A").2.add "B").1 = 1 ∧
    (((TaskCatalog.empty.add "A").2.add "B").2.add "A").1 = 0 := by
  obtain ⟨h1, h2, h3, h4⟩ := h
  cases hx : lookupStr c._tasks x with
  | some tid =>
    have hadd : c.add x = (tid, c) := by simp [TaskCatalog.add, hx]
    refine ⟨?_, ?_, ?_, ?_, by decide, by decide, by decide⟩
    · rw [hadd, hadd]
    · rw [hadd, hadd]
    · rw [hadd]; exact hx
    · rw [hadd]; exact ⟨h1, h2, h3, h4⟩
  | none =>
    have hnotmem := lookupStr_none_not_key c._tasks x hx
    have hlook := lookupStr_append_right c._tasks x c._next_id hx
    simp only [TaskCatalog.add, hx]
    refine ⟨?_, ?_, ?_, ?_, by decide, by decide, by decide⟩
    · simp [TaskCatalog.add, hlook]
    · simp [TaskCatalog.add, hlook]
    · exact hlook
    · refine ⟨?_, ?_, ?_, ?_⟩
      · simp only [List.map_append, List.length_append, List.map_cons,
          List.map_nil, List.length_cons, List.length_nil, h1, h3]
        simp [List.range_succ]
      · simp only [List.map_append, List.map_cons, List.map_nil]
        simp [List.nodup_append, h2, hnotmem]
      · simp [h3]
      · simp [h4]

/-- C5 witness: the catalog theorem instantiated at the empty catalog
(well-formed by computation) and the text "x". -/
theorem c5_task_catalog_add_witness :
    ((TaskCatalog.empty.add "x").2.add "x").1 = (TaskCatalog.empty.add "x").1 ∧
    ((TaskCatalog.empty.add "x").2.add "x").2 = (TaskCatalog.empty.add "x").2 ∧
    lookupStr (TaskCatalog.empty.add "x").2._tasks "x"
      = some (TaskCatalog.empty.add "x").1 ∧
    (TaskCatalog.empty.add "x").2.Wf ∧
    (TaskCatalog.empty.add "A").1 = 0 ∧
    ((TaskCatalog.empty.add "A").2.add "B").1 = 1 ∧
    (((TaskCatalog.empty.add "A").2.add "B").2.add "A").1 = 0 :=
  c5_task_catalog_add TaskCatalog.empty "x" (by decide)

/-! C6: the statistics accumulator. -/

/-- C6: for every feature key held by the accumulator (with a nonzero
sample count, i.e. at least one added value), `compute` returns an
entry with mean = sum/count, std = sqrt(max(sumSq/count − mean², 0))
elementwise — hence no std component is negative — and in particular
after adding [1,2,3] and [2,3,4] under one key the computed stats have
count = 2 and mean = [3/2, 5/2, 7/2]. -/
theorem c6_stats_compute :
    (∀ (acc : StatsAcc) (key : String) (e : StatEntry),
      lookupStr acc key = some e → e.count ≠ 0 →
      ∃ fs, lookupStr (statsCompute acc) key = some fs ∧
        fs.count = e.count ∧
        fs.mean = e.sum.map (fun x => x / (e.count : ℚ)) ∧
        fs.std = (List.zipWith (fun s m => s / (e.count : ℚ) - m * m) e.sum_sq
            (e.sum.map (fun x => x / (e.count : ℚ)))).map
              (fun v => Rat.sqrt (max v 0)) ∧
        ∀ x ∈ fs.std, 0 ≤ x) ∧
    ((statsCompute (statsAdd (statsAdd [] "k" [1, 2, 3]) "k" [2, 3, 4])).map
      (fun p => (p.1, p.2.count, p.2.mean))) = [("k", 2, [3/2, 5/2, 7/2])] := by
  constructor
  · intro acc
    induction acc with
    | nil => intro key e h; simp [lookupStr] at h
    | cons p rest ih =>
      intro key e h hc
      by_cases hk : p.1 = key
      · have he : p.2 = e := by simpa [lookupStr, hk] using h
        subst he
        refine ⟨⟨p.2.sum.map (fun x => x / (p.2.count : ℚ)),
          (List.zipWith (fun s m => s / (p.2.count : ℚ) - m * m) p.2.sum_sq
            (p.2.sum.map (fun x => x / (p.2.count : ℚ)))).map
              (fun v => Rat.sqrt (max v 0)),
          p.2.min, p.2.max, p.2.count⟩, ?_, rfl, rfl, rfl, ?_⟩
        · simp only [statsCompute, List.filterMap_cons, if_neg hc]
          simp [lookupStr, hk]
        · intro x hx
          obtain ⟨v, _, rfl⟩ := List.mem_map.1 hx
          exact Rat.sqrt_nonneg _
      · have hrest : lookupStr rest key = some e := by
          simpa [lookupStr, hk] using h
        obtain ⟨fs, hfs, hcnt, hmean, hstd, hnn⟩ := ih key e hrest hc
        refine ⟨fs, ?_, hcnt, hmean, hstd, hnn⟩
        by_cases hc0 : p.2.count = 0
        · simpa [statsCompute, List.filterMap_cons, hc0] using hfs
        · simp only [statsCompute, List.filterMap_cons, if_neg hc0] at hfs ⊢
          simpa [lookupStr, hk] using hfs
  · norm_num [statsAdd, lookupStr, statsCompute, StatEntry.update,
      List.filterMap_cons]

/-- C6 witness: the accumulator theorem instantiated at a one-key
accumulator holding a single sample. -/
theorem c6_stats_compute_witness :
    ∃ fs, lookupStr (statsCompute [("a", ⟨1, [2], [4], [2], [2]⟩)]) "a" = some fs ∧
      fs.count = (⟨1, [2], [4], [2], [2]⟩ : StatEntry).count ∧
      fs.mean = (⟨1, [2], [4], [2], [2]⟩ : StatEntry).sum.map
        (fun x => x / (((⟨1, [2], [4], [2], [2]⟩ : StatEntry).count : ℚ))) ∧
      fs.std = (List.zipWith
          (fun s m => s / (((⟨1, [2], [4], [2], [2]⟩ : StatEntry).count : ℚ)) - m * m)
          (⟨1, [2], [4], [2], [2]⟩ : StatEntry).sum_sq
          ((⟨1, [2], [4], [2], [2]⟩ : StatEntry).sum.map
            (fun x => x / (((⟨1, [2], [4], [2], [2]⟩ : StatEntry).count : ℚ))))).map
        (fun v => Rat.sqrt (max v 0)) ∧
      ∀ x ∈ fs.std, 0 ≤ x :=
  c6_stats_compute.1 [("a", ⟨1, [2], [4], [2], [2]⟩)] "a" ⟨1, [2], [4], [2], [2]⟩
    (by decide) (by decide)

/-! C7: dict round-trips. -/

theorem obsVal_roundtrip (v : ObsVal) : obsValFromDict (obsValToDict v) = v := by
  cases v <;> rfl

theorem step_roundtrip (s : Step) : Step.from_dict (Step.to_dict s) = s := by
  cases s
  simp [Step.to_dict, Step.from_dict, obsVal_roundtrip, List.map_map,
    Function.comp_def]

theorem stepList_roundtrip (l : List Step) :
    (l.map Step.to_dict).map Step.from_dict = l := by
  induction l with
  | nil => rfl
  | cons a t ih => simp [step_roundtrip, ih]

/-- C7: serializing a Step with `to_dict` and reading it back with
`from_dict` restores it exactly, and likewise for every Episode that
the constructor admits (`admissible`: the state every episode
constructed by the program satisfies): the round-trip restores every
field — flags, timestamps, observation keys and values, action,
reward, discount and metadata. -/
theorem c7_dict_roundtrip :
    (∀ s : Step, Step.from_dict (Step.to_dict s) = s) ∧
    (∀ e : Episode, e.admissible = true →
      Episode.from_dict (Episode.to_dict e) = some e) := by
  refine ⟨step_roundtrip, ?_⟩
  intro e he
  obtain ⟨eid, did, steps, tid, tt, inv, md⟩ := e
  have he' : steps = [] ∨ inv = true ∨
      (firstFlagOk steps = true ∧ lastFlagOk steps = true) := by
    simpa [Episode.admissible, or_assoc] using he
  show mkEpisode eid did ((steps.map Step.to_dict).map Step.from_dict)
      tid tt inv md = some ⟨eid, did, steps, tid, tt, inv, md⟩
  rw [stepList_roundtrip]
  rcases he' with h1 | h2 | ⟨h3, h4⟩
  · subst h1; simp [mkEpisode]
  · subst h2; by_cases h1 : steps.isEmpty <;> simp [mkEpisode, h1]
  · by_cases h1 : steps.isEmpty <;> by_cases h2 : inv <;>
      simp [mkEpisode, h1, h2, h3, h4]

/-- C7 witness: the episode round-trip applied to a concrete admissible
episode. -/
theorem c7_dict_roundtrip_witness :
    Episode.from_dict (Episode.to_dict demoEpisode) = some demoEpisode :=
  c7_dict_roundtrip.2 demoEpisode (by decide)

/-! C1: the compiler's per-episode classification. -/

/-- C1: for every episode processed by `Compiler.compile`: when the
merged validator findings contain an ERROR, the episode is never passed
to the writer and `episodes_rejected` is incremented by one; when there
is no ERROR but at least one WARN, the episode is passed to the writer
with `invalid = true` and `episodes_invalid` is incremented by one;
when there is neither, the episode is passed to the writer and
`episodes_written` is incremented by one. -/
theorem c1_compiler_classification {W : Type} (write : W → Episode → W)
    (validators : List (Episode → List Finding))
    (transform : Episode → Episode) (failFast : Bool)
    (st : CompileState W) (ep : Episode) :
    (hasErrorFinding (episodeFindings validators (transform ep)) = true →
      (compileStep write validators transform failFast st ep).1.writer
        = st.writer ∧
      (compileStep write validators transform failFast st ep).1.episodes_rejected
        = st.episodes_rejected + 1) ∧
    (hasErrorFinding (episodeFindings validators (transform ep)) = false →
      hasWarnFinding (episodeFindings validators (transform ep)) = true →
      (compileStep write validators transform failFast st ep).1.writer
        = write st.writer { transform ep with invalid := true } ∧
      (compileStep write validators transform failFast st ep).1.episodes_invalid
        = st.episodes_invalid + 1) ∧
    (hasErrorFinding (episodeFindings validators (transform ep)) = false →
      hasWarnFinding (episodeFindings validators (transform ep)) = false →
      (compileStep write validators transform failFast st ep).1.writer
        = write st.writer (transform ep) ∧
      (compileStep write validators transform failFast st ep).1.episodes_written
        = st.episodes_written + 1) := by
  refine ⟨fun h1 => ?_, fun h1 h2 => ?_, fun h1 h2 => ?_⟩ <;>
    simp [compileStep, h1] <;> simp [h2]

/-- C1 witness: the classification theorem applied to one
error-producing, one warn-producing and one silent validator on a
concrete episode. -/
theorem c1_compiler_classification_witness :
    ((compileStep (fun (w : List Episode) e => w ++ [e])
        [fun _ => [⟨"v", Severity.error, "m", none, none⟩]] id false
        ⟨[], 0, 0, 0⟩ demoEpisode).1.writer = ([] : List Episode) ∧
      (compileStep (fun (w : List Episode) e => w ++ [e])
        [fun _ => [⟨"v", Severity.error, "m", none, none⟩]] id false
        ⟨[], 0, 0, 0⟩ demoEpisode).1.episodes_rejected = 0 + 1) ∧
    ((compileStep (fun (w : List Episode) e => w ++ [e])
        [fun _ => [⟨"v", Severity.warn, "m", none, none⟩]] id false
        ⟨[], 0, 0, 0⟩ demoEpisode).1.writer
        = (fun (w : List Episode) e => w ++ [e]) []
            { id demoEpisode with invalid := true } ∧
      (compileStep (fun (w : List Episode) e => w ++ [e])
        [fun _ => [⟨"v", Severity.warn, "m", none, none⟩]] id false
        ⟨[], 0, 0, 0⟩ demoEpisode).1.episodes_invalid = 0 + 1) ∧
    ((compileStep (fun (w : List Episode) e => w ++ [e])
        [fun _ => ([] : List Finding)] id false
        ⟨[], 0, 0, 0⟩ demoEpisode).1.writer
        = (fun (w : List Episode) e => w ++ [e]) [] (id demoEpisode) ∧
      (compileStep (fun (w : List Episode) e => w ++ [e])
        [fun _ => ([] : List Finding)] id false
        ⟨[], 0, 0, 0⟩ demoEpisode).1.episodes_written = 0 + 1) :=
  ⟨(c1_compiler_classification _ _ _ _ _ _).1 (by decide),
   (c1_compiler_classification _ _ _ _ _ _).2.1 (by decide) (by decide),
   (c1_compiler_classification _ _ _ _ _ _).2.2 (by decide) (by decide)⟩

/-! C2: the shape of episodes accepted by the RLDS validator. -/

/-- C2 counterexample: the two-step episode `c2Episode` — both of whose
steps carry `is_first` and `is_last`, the first also a non-null
action — yields no findings at all from the RLDS invariant validator
(which only inspects `steps[1:-1]` for flag duplication), is therefore
classified non-error and passed unchanged to the writer by the
compiler; yet `is_last` holds at two positions (not only the final
one), `is_first` holds at two positions, and the step at the first
`is_last` position carries a non-null action. -/
theorem c2_counterexample :
    rldsValidate c2Episode = [] ∧
    hasErrorFinding (rldsValidate c2Episode) = false ∧
    (compileRun (fun (w : List Episode) e => w ++ [e]) [rldsValidate] id false
      ⟨[], 0, 0, 0⟩ [c2Episode]).writer = [c2Episode] ∧
    (c2Episode.steps.filter (fun s => s.is_last)).length = 2 ∧
    (c2Episode.steps.filter (fun s => s.is_first)).length = 2 ∧
    c2Episode.steps.head? = some c2Step0 ∧
    c2Step0.is_last = true ∧
    c2Step0.action ≠ none := by
  refine ⟨by decide, by decide, rfl, by decide, by decide, rfl, rfl, by decide⟩

theorem rldsMiddleFindings_error (eid : String) (steps : List Step) (s : Step)
    (hs : s ∈ steps) (hflag : s.is_first = true ∨ s.is_last = true) :
    ∀ i, hasErrorFinding (rldsMiddleFindings eid i steps) = true := by
  induction steps with
  | nil => cases hs
  | cons a t ih =>
    intro i
    simp only [List.mem_cons] at hs
    rcases hs with rfl | hmem
    · rcases hflag with hf | hl
      · simp [rldsMiddleFindings, hasErrorFinding_append, hasErrorFinding,
          mkFinding, hf]
      · simp [rldsMiddleFindings, hasErrorFinding_append, hasErrorFinding,
          mkFinding, hl]
    · simp [rldsMiddleFindings, hasErrorFinding_append, ih hmem]

/-- C2 (amended): every episode the RLDS invariant validator classifies
non-error (hence every episode the compiler passes to the writer under
that validator) is non-empty, its first step has `is_first = true`, its
last step has `is_last = true`, and no strictly interior step
(`steps[1:-1]`) carries `is_first` or `is_last`.  The claim's stronger
conjuncts fail on the code (see the counterexample): the validator
never inspects the last step's `is_first` or the first step's
`is_last`, so flag uniqueness is not guaranteed, and a non-null action
on the final step is only a WARN, so accepted episodes may carry
one. -/
theorem c2_accepted_episode_shape (e : Episode)
    (h : hasErrorFinding (rldsValidate e) = false) :
    e.steps ≠ [] ∧
    firstFlagOk e.steps = true ∧
    lastFlagOk e.steps = true ∧
    ∀ s ∈ (e.steps.drop 1).dropLast, s.is_first = false ∧ s.is_last = false := by
  unfold rldsValidate at h
  cases hs : e.steps with
  | nil => rw [hs] at h; simp [rldsFindingsCore, hasErrorFinding] at h
  | cons s0 rest =>
    rw [hs] at h
    simp only [rldsFindingsCore, hasErrorFinding_append,
      Bool.or_eq_false_iff] at h
    obtain ⟨⟨⟨⟨hA, hB⟩, _⟩, hD⟩, _⟩ := h
    refine ⟨by simp, ?_, ?_, ?_⟩
    · by_cases hf : s0.is_first
      · exact hf
      · simp [hf, hasErrorFinding, mkFinding] at hA
    · rw [lastFlagOk_cons, List.getLastD_eq_getLast?]
      simpa [hasErrorFinding, mkFinding] using hB
    · intro s hsmem
      constructor
      · by_cases hf : s.is_first
        · rw [rldsMiddleFindings_error _ _ s (by simpa using hsmem)
            (Or.inl hf) 1] at hD
          cases hD
        · simpa using hf
      · by_cases hl : s.is_last
        · rw [rldsMiddleFindings_error _ _ s (by simpa using hsmem)
            (Or.inr hl) 1] at hD
          cases hD
        · simpa using hl

/-- C2 witness: the amended theorem applied to a concrete well-formed
episode accepted by the validator. -/
theorem c2_accepted_episode_shape_witness :
    demoEpisode.steps ≠ [] ∧
    firstFlagOk demoEpisode.steps = true ∧
    lastFlagOk demoEpisode.steps = true ∧
    ∀ s ∈ (demoEpisode.steps.drop 1).dropLast,
      s.is_first = false ∧ s.is_last = false :=
  c2_accepted_episode_shape demoEpisode (by decide)

/-! C3: offset verification and finalization. -/

theorem overlapErrors_eq_nil (l : List (Int × Int)) :
    ∀ i, (overlapErrors i l = [] ↔ adjacentOverlap l = false) := by
  induction l with
  | nil => intro i; simp [overlapErrors, adjacentOverlap]
  | cons a t ih =>
    cases t with
    | nil => intro i; simp [overlapErrors, adjacentOverlap]
    | cons b rest =>
      intro i
      by_cases hov : b.1 < a.2
      · simp [overlapErrors, adjacentOverlap, hov]
      · simp [overlapErrors, adjacentOverlap, hov, ih]

/-- C3 counterexample: a one-row index recording 3 rows when the
counted totals are 5 steps — the recorded row-count sum differs from
the totals and no ranges overlap, so the claim says a violation must be
reported; but `verify_offsets` never reads its `expected_steps`
argument, reports no violation, and `finalize` seals the manifest as
completed. -/
theorem c3_counterexample :
    verifyOffsets (some c3Table) 1 5 = [] ∧
    specRowCountSum c3Table = 3 ∧
    (3 : Int) ≠ 5 ∧
    (finalizeRun demoManifest (some c3Table) 1 5 0 []).1.status = "completed" := by
  refine ⟨rfl, rfl, by decide, rfl⟩

/-- C3 (amended): the verification step reports a violation if and only
if the episodes index is missing, or the number of index rows differs
from the expected episode count, or two row ranges overlap when the
ranges are sorted — the sum of recorded per-shard row counts is never
compared against the counted totals (`expected_steps` is unused); when
no violation is reported, `finalize` seals the manifest as completed
and succeeds, and on any violation it seals the manifest as failed and
raises. -/
theorem c3_finalize_verification (m : RunManifest)
    (table : Option (List IndexRow)) (episode_count expected_steps : Nat)
    (duration : ℚ) (artifacts : List String) :
    (verifyOffsets table episode_count expected_steps ≠ [] ↔
      table = none ∨ ∃ rows, table = some rows ∧
        (rows.length ≠ episode_count ∨
         adjacentOverlap (sortRanges (rows.map
           (fun r => (r.parquet_row_start, r.parquet_row_end)))) = true)) ∧
    ((finalizeRun m table episode_count expected_steps duration artifacts).1.status
      = if verifyOffsets table episode_count expected_steps = [] then "completed"
        else "failed") ∧
    ((∃ u, (finalizeRun m table episode_count expected_steps duration artifacts).2
        = Except.ok u) ↔
      verifyOffsets table episode_count expected_steps = []) := by
  refine ⟨?_, ?_, ?_⟩
  · cases table with
    | none => simp [verifyOffsets]
    | some rows =>
      by_cases hlen : rows.length = episode_count <;>
        simp [verifyOffsets, hlen, List.append_eq_nil,
          overlapErrors_eq_nil, Bool.not_eq_false]
  · by_cases herr : verifyOffsets table episode_count expected_steps = [] <;>
      simp [finalizeRun, herr, RunManifest.complete, RunManifest.fail]
  · by_cases herr : verifyOffsets table episode_count expected_steps = [] <;>
      simp [finalizeRun, herr]

/-! C8: transform error behaviour. -/

/-- C8 counterexample: with its default configuration
(`default_text = ""`, `allow_empty = False`), `TaskTextTransform`
raises `ValueError` on an episode whose task text is missing — the
transform chain does not, in general, avoid raising on recoverable
data issues. -/
theorem c8_counterexample :
    taskTextTransform defaultTaskCfg demoSpec c8Episode
      = Except.error "Empty task_text for episode e-no-task" := rfl

/-- C8 (amended): the camera-selection transform returns the episode
unchanged when no camera can be found, and the task-text transform
never raises when `allow_empty` is true or a non-empty default text is
configured; with the default configuration (empty default,
`allow_empty` false) it does raise on episodes whose task text resolves
to empty (see the counterexample). -/
theorem c8_transform_recoverable (cfgC : CameraCfg) (cfgT : TaskCfg)
    (spec : DatasetSpec) (ep : Episode) :
    (findCamera cfgC ep spec = none → selectCameraTransform cfgC spec ep = ep) ∧
    (cfgT.allow_empty = true ∨ cfgT.default_text ≠ "" →
      ∃ r, taskTextTransform cfgT spec ep = Except.ok r) := by
  constructor
  · intro h
    simp [selectCameraTransform, h]
  · intro h
    rcases h with ha | hd
    · simp [taskTextTransform, ha]
    · by_cases ht : (if normalizeTaskText (extractTaskText cfgT ep) = ""
          then cfgT.default_text
          else normalizeTaskText (extractTaskText cfgT ep)) = ""
      · exfalso
        by_cases h0 : normalizeTaskText (extractTaskText cfgT ep) = ""
        · rw [if_pos h0] at ht; exact hd ht
        · rw [if_neg h0] at ht; exact h0 ht
      · simp [taskTextTransform, ht]

/-- C8 witness: the amended theorem applied to a concrete episode with
no cameras and no task-text source, under a configuration with a
non-empty default text. -/
theorem c8_transform_recoverable_witness :
    selectCameraTransform defaultCameraCfg demoSpec c8Episode = c8Episode ∧
    ∃ r, taskTextTransform ⟨"do the task", false, "observation.language"⟩
      demoSpec c8Episode = Except.ok r :=
  ⟨(c8_transform_recoverable defaultCameraCfg
      ⟨"do the task", false, "observation.language"⟩ demoSpec c8Episode).1 rfl,
   (c8_transform_recoverable defaultCameraCfg
      ⟨"do the task", false, "observation.language"⟩ demoSpec c8Episode).2
      (Or.inr (by decide))⟩

/-! C4: the LeRobot v3 concrete scenario. -/

/-- C4 counterexample: in the concrete 3-episode × 5-step scenario the
episodes index table written by the LeRobot v3 writer does have exactly
3 rows, but its columns are exactly `episode_index`, `tasks` and
`length` — there are no `parquet_row_start`/`parquet_row_end` columns,
so the claimed pairs [0,5), [5,10), [10,15) cannot be columns of this
table. -/
theorem c4_counterexample :
    scenarioTable.length = 3 ∧
    "parquet_row_start" ∉ lerobotEpisodesTableColumns ∧
    "parquet_row_end" ∉ lerobotEpisodesTableColumns := by
  refine ⟨rfl, by decide, by decide⟩

/-- C4 (amended): compiling 3 episodes of 5 steps each through the
LeRobot v3 writer with only RLDS-invariant validation yields
`episodes_written = 3` (nothing rejected or invalid),
`total_frames = 15` and `total_episodes = 3` in `meta/info.json`, and
an episodes index table with exactly 3 rows, each of length 5; the
non-overlapping per-episode row ranges [0,5), [5,10), [10,15) appear as
the `frame_index` runs of the step records grouped by `episode_index`
(the episodes table itself carries no `parquet_row_start`/
`parquet_row_end` columns). -/
theorem c4_lerobot_scenario :
    scenarioState.episodes_written = 3 ∧
    scenarioState.episodes_rejected = 0 ∧
    scenarioState.episodes_invalid = 0 ∧
    scenarioInfo.total_frames = 15 ∧
    scenarioInfo.total_episodes = 3 ∧
    scenarioTable.length = 3 ∧
    scenarioTable.map (fun r => r.length) = [5, 5, 5] ∧
    scenarioFinalState.flushed.flatten.map
        (fun r => (r.episode_index, r.frame_index)) =
      [(0, 0), (0, 1), (0, 2), (0, 3), (0, 4),
       (1, 5), (1, 6), (1, 7), (1, 8), (1, 9),
       (2, 10), (2, 11), (2, 12), (2, 13), (2, 14)] := by
  refine ⟨rfl, rfl, rfl, rfl, rfl, rfl, rfl, rfl⟩

end EDK
